import Mathlib

/-!
# Daemon job supervisor of jiacrontabd (`jiacrontabd/daemon.go`)

A shallow embedding of the supervisor registry (`Daemon`), of the admission
loop (`Daemon.process`), of the halt operation (`Daemon.PopJob`), of boot
recovery (`Daemon.run`) and of the per-job retry loop (`daemonJob.do`,
`daemonJob.syncJob`, `daemonJob.handleNotify`).

Conventions of the embedding:

* Go's `uint` job identifiers are natural numbers; no arithmetic is done on them.
* Every operation returns a `Run`: the state it leaves, the ordered list of
  effects it performed (`Event`), and how the call ended (`Exit`).
* The registry mutex is a boolean of the state.  `Lock()` on a held mutex
  never returns in a sequential run, which is the exit `Exit.blocked`.
* What the collaborators answer (command launcher, RPC peer, store, the
  runtime's `select`) is an explicit input of the loop, one `Iter` per
  iteration.
* Calls of `log.Info`/`log.Infof` are not modelled; calls of `log.Error` are
  effects.
-/

namespace Jiacrontabd

/-- Modelled from the spec: the lifecycle status of a job record, the constants
`models.StatusJobStop` and `models.StatusJobRunning` (package `models` is not
among the sources). -/
inductive JobStatus where
  | StatusJobStop
  | StatusJobRunning
  deriving DecidableEq, Repr

/-- Modelled from the spec: the persisted job record `models.DaemonJob`
(its declaration is not among the sources); the fields are those that
`daemon.go` reads, plus the persisted status column. -/
structure DaemonJob where
  ID : Nat
  Name : String
  Commands : List String
  WorkDir : String
  WorkUser : String
  WorkEnv : List String
  FailRestart : Bool
  ErrorMailNotify : Bool
  MailTo : List String
  ErrorAPINotify : Bool
  APITo : List String
  Status : JobStatus
  CreatedAt : Nat
  deriving DecidableEq, Repr

/-- Modelled from the spec: the relational store behind `models.DB()`, a table
of job records. -/
abbrev DB := List DaemonJob

/-- Modelled from the spec: `find(filter)`, the rows whose persisted status is
the given one (`Where("status=?", s).Find(&jobList)`). -/
def DB.find (db : DB) (status : JobStatus) : List DaemonJob :=
  db.filter (fun r => decide (r.Status = status))

/-- Modelled from the spec: `takeIf(id, expectedStatus)`, the first row with
that id and status, `none` (an error) when there is no such row
(`Take(d.job, "id=? and status=?", id, s)`). -/
def DB.take (db : DB) (id : Nat) (status : JobStatus) : Option DaemonJob :=
  db.find? (fun r => decide (r.ID = id) && decide (r.Status = status))

/-- The process-wide configuration `cfg` read by `daemon.go` (declared outside
the sources): taken as a parameter. -/
structure Config where
  LocalAddr : String
  AdminAddr : String
  LogPath : String
  deriving DecidableEq, Repr

/-- `ApiNotifyArgs` of `daemon.go`. -/
structure ApiNotifyArgs where
  JobName : String
  JobID : Nat
  Commands : List String
  NodeAddr : String
  CreatedAt : Nat
  NotifyType : String
  deriving DecidableEq, Repr

/-- Arguments of the `Srv.SendMail` call (`proto.SendMail`); the body text,
which embeds the wall clock, is left out. -/
structure SendMail where
  MailTo : List String
  Subject : String
  deriving DecidableEq, Repr

/-- Arguments of the `Srv.ApiPost` call (`proto.ApiPost`): the payload is kept
as the value that was marshalled, `none` when `json.Marshal` failed (the empty
string is posted then). -/
structure ApiPost where
  Urls : List String
  Data : Option ApiNotifyArgs
  deriving DecidableEq, Repr

/-- The observable effects of the supervisor, in program order. -/
inductive Event where
  | lock
  | unlock
  | mapStore (jobID : Nat)
  | mapDelete (jobID : Nat)
  | chanSend (jobID : Nat)
  | withCancel (ctx : Nat)
  | goDo (jobID : Nat) (ctx : Nat)
  | cancel (ctx : Nat)
  | waitAdd
  | waitDone
  | update (jobID : Nat) (status : JobStatus)
  | launch (jobID : Nat) (commands : List String)
  | sendMail (args : SendMail)
  | apiPost (args : ApiPost)
  | logError (what : String)
  | tickerStop
  | recovered
  deriving DecidableEq, Repr

/-- How a call ends: it returns; it waits forever (`blocked`: a held mutex or a
full channel with no receiver); a panic leaves it; the goroutine is parked at
the receive of the empty admission channel (`idle`); or the retry loop is still
iterating when the supplied iterations are used up (`running`). -/
inductive Exit where
  | returned
  | blocked
  | panicked
  | idle
  | running
  deriving DecidableEq, Repr

/-- The outcome of one call on a state of type `σ`. -/
structure Run (σ : Type) where
  state : σ
  trace : List Event
  exit : Exit
  deriving Repr

/-- The in-memory task `daemonJob`.  `cancel` is the `context.CancelFunc`
(`none` is Go's nil, `some c` cancels context `c`).  The back-reference
`daemon` is the `Daemon` passed to each operation. -/
structure daemonJob where
  job : DaemonJob
  cancel : Option Nat
  processNum : Nat
  deriving DecidableEq, Repr

/-- The Go map `map[uint]*daemonJob`, as an association list. -/
abbrev TaskMap := List (Nat × daemonJob)

/-- The lookup `m[k]`; `none` is the nil pointer of an absent key. -/
def mapGet : TaskMap → Nat → Option daemonJob
  | [], _ => none
  | (k1, v) :: rest, k => if k1 = k then some v else mapGet rest k

/-- The builtin `delete(m, k)`. -/
def mapDelete : TaskMap → Nat → TaskMap
  | [], _ => []
  | (k1, v) :: rest, k => if k1 = k then mapDelete rest k else (k1, v) :: mapDelete rest k

/-- The assignment `m[k] = v`. -/
def mapStore (m : TaskMap) (k : Nat) (v : daemonJob) : TaskMap :=
  (k, v) :: mapDelete m k

/-- The struct `Daemon`: the buffered admission channel with its capacity, the
registry, the mutex (`true` while held), the wait-group counter, and the number
of contexts derived so far (the identity of the next `context.WithCancel`). -/
structure Daemon where
  taskChannel : List daemonJob
  taskChannelLength : Nat
  taskMap : TaskMap
  lock : Bool
  wait : Int
  ctxs : Nat
  deriving DecidableEq, Repr

/-- The constructor `newDaemon(taskChannelLength)`. -/
def newDaemon (taskChannelLength : Nat) : Daemon :=
  { taskChannel := [], taskChannelLength := taskChannelLength, taskMap := [],
    lock := false, wait := 0, ctxs := 0 }

/-- The method `Daemon.add`: nothing for a nil task; otherwise the send
`d.taskChannel <- t`, which needs a free slot of the buffer (no receiver runs
during the call) and waits otherwise. -/
def Daemon.add (d : Daemon) (t : Option daemonJob) : Run Daemon :=
  match t with
  | none => ⟨d, [], .returned⟩
  | some t =>
    if d.taskChannel.length < d.taskChannelLength then
      ⟨{ d with taskChannel := d.taskChannel ++ [t] }, [.chanSend t.job.ID], .returned⟩
    else
      ⟨d, [], .blocked⟩

/-- The method `Daemon.PopJob`: lock, look the task up; when it is there delete
it, unlock, and call its `cancel` (a nil `cancel` panics); otherwise unlock. -/
def Daemon.PopJob (d : Daemon) (jobID : Nat) : Run Daemon :=
  if d.lock then ⟨d, [], .blocked⟩
  else
    match mapGet d.taskMap jobID with
    | some t =>
      match t.cancel with
      | some c =>
        ⟨{ d with taskMap := mapDelete d.taskMap jobID },
          [.lock, .mapDelete jobID, .unlock, .cancel c], .returned⟩
      | none =>
        ⟨{ d with taskMap := mapDelete d.taskMap jobID },
          [.lock, .mapDelete jobID, .unlock], .panicked⟩
    | none => ⟨d, [.lock, .unlock], .returned⟩

/-- The method `Daemon.count`: the size of the registry, read under the lock. -/
def Daemon.count (d : Daemon) : Run Nat :=
  if d.lock then ⟨0, [], .blocked⟩
  else ⟨d.taskMap.length, [.lock, .unlock], .returned⟩

/-- The method `Daemon.waitDone`: `d.wait.Wait()` returns once the wait-group
counter is zero and waits otherwise. -/
def Daemon.waitDone (d : Daemon) : Run Unit :=
  if d.wait = 0 then ⟨(), [], .returned⟩ else ⟨(), [], .blocked⟩

/-- The body of the `for v := range d.taskChannel` loop of `Daemon.process`
for one received task `v`: lock; when the id has no entry, store `v`, unlock,
derive a fresh context, attach its cancel function to `v` and start
`go v.do(ctx)`; when the id has an entry the body ends at once (the source has
no `Unlock` on that path). -/
def Daemon.processBody (d : Daemon) (v : daemonJob) : Run Daemon :=
  if d.lock then ⟨d, [], .blocked⟩
  else
    match mapGet d.taskMap v.job.ID with
    | none =>
      ⟨{ d with taskMap := mapStore d.taskMap v.job.ID { v with cancel := some d.ctxs },
                ctxs := d.ctxs + 1 },
        [.lock, .mapStore v.job.ID, .unlock, .withCancel d.ctxs, .goDo v.job.ID d.ctxs],
        .returned⟩
    | some _ => ⟨{ d with lock := true }, [.lock], .returned⟩

/-- The admission loop over the tasks waiting in the channel, in order: each is
received (it leaves the channel) and handed to the body; the loop is `idle`
once the channel is empty and `blocked` when a `Lock()` never returns. -/
def Daemon.processFrom (d : Daemon) : List daemonJob → Run Daemon
  | [] => ⟨{ d with taskChannel := [] }, [], .idle⟩
  | v :: rest =>
    let r := Daemon.processBody { d with taskChannel := rest } v
    match r.exit with
    | .returned =>
      let r2 := Daemon.processFrom r.state rest
      ⟨r2.state, r.trace ++ r2.trace, r2.exit⟩
    | e => ⟨r.state, r.trace, e⟩

/-- The method `Daemon.process`: the admission goroutine run on what the
channel holds. -/
def Daemon.process (d : Daemon) : Run Daemon :=
  d.processFrom d.taskChannel

/-- The task `&daemonJob{job: &job}` that `Daemon.run` builds for a record: no
cancel function yet, `processNum` zero. -/
def freshTask (job : DaemonJob) : daemonJob :=
  { job := job, cancel := none, processNum := 0 }

/-- The `for _, v := range jobList` of `Daemon.run`: one `add` of a fresh
`daemonJob` per record; a send that waits stops the loop there. -/
def Daemon.addAll (d : Daemon) : List DaemonJob → Run Daemon
  | [] => ⟨d, [], .returned⟩
  | v :: rest =>
    let r := d.add (some (freshTask v))
    match r.exit with
    | .returned =>
      let r2 := Daemon.addAll r.state rest
      ⟨r2.state, r.trace ++ r2.trace, r2.exit⟩
    | e => ⟨r.state, r.trace, e⟩

/-- The method `Daemon.run`: query the rows with status running (a failed query
is logged and leaves the list empty), add each, then call `process`.  The exit
is `blocked` when an `add` waits (`process` is never reached) and otherwise
that of the admission loop. -/
def Daemon.run (d : Daemon) (db : DB) (findFails : Bool) : Run Daemon :=
  let jobList := if findFails then [] else DB.find db .StatusJobRunning
  let pre : List Event := if findFails then [.logError "init daemon task error:"] else []
  let r := d.addAll jobList
  match r.exit with
  | .returned =>
    let r2 := r.state.process
    ⟨r2.state, pre ++ r.trace ++ r2.trace, r2.exit⟩
  | e => ⟨r.state, pre ++ r.trace, e⟩

/-- What `myCmdUint.launch()` does: it returns an error value (`none` is nil)
or it panics. -/
inductive LaunchResult where
  | returned (err : Option String)
  | panic
  deriving DecidableEq, Repr

/-- What one `rpcCall` does: it returns nil, returns an error, or panics. -/
inductive RpcResult where
  | ok
  | failed
  | panic
  deriving DecidableEq, Repr

/-- The answers of the collaborators during one iteration of the retry loop:
the launcher, the two RPC calls and `json.Marshal` of `handleNotify`, the
`select` (is `ctx.Done()` ready, does the ticker channel `t.C` hold a tick,
which ready case the runtime picks when both are, and which of the two comes
first when neither is), and the store contents at the re-fetch of `syncJob`. -/
structure Iter where
  launch : LaunchResult
  mail : RpcResult
  marshalFails : Bool
  api : RpcResult
  done : Bool
  tick : Bool
  pickDone : Bool
  doneFirst : Bool
  db : DB
  deriving DecidableEq, Repr

/-- The `select` of the loop: the value of `stop` after it.  A ready case is
taken; of two ready cases the runtime picks one; with none ready the select
waits for the first of cancellation and tick. -/
def selectStop (it : Iter) : Bool :=
  if it.done then (if it.tick then it.pickDone else true)
  else (if it.tick then false else it.doneFirst)

/-- The `log.Error` that follows an `rpcCall` returning an error. -/
def rpcLog (what : String) : RpcResult → List Event
  | .failed => [.logError what]
  | _ => []

/-- The `proto.SendMail` value that `handleNotify` builds. -/
def daemonJob.mailArgs (cfg : Config) (d : daemonJob) : SendMail :=
  { MailTo := d.job.MailTo, Subject := cfg.LocalAddr ++ "提醒常驻脚本异常退出" }

/-- The `proto.ApiPost` value that `handleNotify` builds: the job's urls and the
marshalled `ApiNotifyArgs` with the notify type "error". -/
def daemonJob.apiArgs (cfg : Config) (d : daemonJob) (marshalFails : Bool) : ApiPost :=
  { Urls := d.job.APITo,
    Data := if marshalFails then none else
      some { JobName := d.job.Name, JobID := d.job.ID, Commands := d.job.Commands,
             NodeAddr := cfg.LocalAddr, CreatedAt := d.job.CreatedAt, NotifyType := "error" } }

/-- The mail half of `handleNotify`: the call `Srv.SendMail` when
`ErrorMailNotify` is set and `MailTo` is not empty. -/
def daemonJob.notifyMail (cfg : Config) (d : daemonJob) (mail : RpcResult) : List Event :=
  if d.job.ErrorMailNotify && decide (d.job.MailTo.length > 0) then
    [.sendMail (d.mailArgs cfg)] ++ rpcLog "Srv.SendMail error:" mail
  else []

/-- The webhook half of `handleNotify`: marshal the `ApiNotifyArgs` (a failure
is logged and the call still goes out) and call `Srv.ApiPost`, when
`ErrorAPINotify` is set and `APITo` is not empty. -/
def daemonJob.notifyApi (cfg : Config) (d : daemonJob) (marshalFails : Bool)
    (api : RpcResult) : List Event :=
  if d.job.ErrorAPINotify && decide (d.job.APITo.length > 0) then
    (if marshalFails then [.logError "json.Marshal error:"] else [])
      ++ [.apiPost (d.apiArgs cfg marshalFails)]
      ++ rpcLog "Logic.ApiPost error:" api
  else []

/-- The method `daemonJob.handleNotify(err)`: nothing for a nil error; otherwise
the mail half, then the webhook half.  A panic of an issued RPC ends the method
there. -/
def daemonJob.handleNotify (cfg : Config) (d : daemonJob) (err : Option String)
    (mail : RpcResult) (marshalFails : Bool) (api : RpcResult) : Run Unit :=
  match err with
  | none => ⟨(), [], .returned⟩
  | some _ =>
    if (d.job.ErrorMailNotify && decide (d.job.MailTo.length > 0)) && decide (mail = .panic) then
      ⟨(), d.notifyMail cfg mail, .panicked⟩
    else if (d.job.ErrorAPINotify && decide (d.job.APITo.length > 0)) && decide (api = .panic) then
      ⟨(), d.notifyMail cfg mail ++ d.notifyApi cfg marshalFails api, .panicked⟩
    else
      ⟨(), d.notifyMail cfg mail ++ d.notifyApi cfg marshalFails api, .returned⟩

/-- The method `daemonJob.syncJob`: re-fetch the record by id and status running
into `d.job`; `none` is the error of a missing row. -/
def daemonJob.syncJob (d : daemonJob) (db : DB) : Option daemonJob :=
  match DB.take db d.job.ID .StatusJobRunning with
  | some r => some { d with job := r }
  | none => none

/-- The `for` loop of `daemonJob.do`, one `Iter` per iteration: launch, notify,
select, then leave the loop when `stop` is set or `FailRestart` is false, or
when `syncJob` fails; otherwise go round again with the refreshed record.
The exit is `returned` for a `break`, `panicked` for a panic of the launcher or
of the notifier, `running` when the iterations are used up. -/
def daemonJob.doLoop (cfg : Config) (d : daemonJob) : List Iter → Run daemonJob
  | [] => ⟨d, [], .running⟩
  | it :: rest =>
    match it.launch with
    | .panic => ⟨d, [.launch d.job.ID d.job.Commands], .panicked⟩
    | .returned err =>
      let n := d.handleNotify cfg err it.mail it.marshalFails it.api
      match n.exit with
      | .returned =>
        if selectStop it || (d.job.FailRestart == false) then
          ⟨d, .launch d.job.ID d.job.Commands :: n.trace, .returned⟩
        else
          match d.syncJob it.db with
          | none => ⟨d, .launch d.job.ID d.job.Commands :: n.trace, .returned⟩
          | some d1 =>
            let r := daemonJob.doLoop cfg d1 rest
            ⟨r.state, .launch d.job.ID d.job.Commands :: n.trace ++ r.trace, r.exit⟩
      | _ => ⟨d, .launch d.job.ID d.job.Commands :: n.trace, .panicked⟩

/-- The state of a running `do`: the supervisor and the task. -/
structure DoState where
  daemon : Daemon
  task : daemonJob
  deriving DecidableEq, Repr

/-- The entry of `daemonJob.do`: `processNum = 1`, the ticker, `wait.Add(1)`,
and the update of the persisted status to running (a failure is logged).  The
update is an effect on the store; `daemon.go` never reads the status field of
its in-memory record, which is left as it is. -/
def daemonJob.doEnter (dm : Daemon) (d : daemonJob) (updateFails : Bool) : Run DoState :=
  ⟨{ daemon := { dm with wait := dm.wait + 1 }, task := { d with processNum := 1 } },
    [.waitAdd, .update d.job.ID .StatusJobRunning]
      ++ (if updateFails then [.logError "update status"] else []),
    .returned⟩

/-- The deferred function of `daemonJob.do`: recover (and log) a panic,
`processNum = 0`, the update of the persisted status to stopped (a failure is
logged), `wait.Done()`.  The function `do` returns after it. -/
def daemonJob.doDeferred (dm : Daemon) (d : daemonJob) (panicking : Bool)
    (updateFails : Bool) : Run DoState :=
  ⟨{ daemon := { dm with wait := dm.wait - 1 }, task := { d with processNum := 0 } },
    (if panicking then [.recovered, .logError "exec panic"] else [])
      ++ [.update d.job.ID .StatusJobStop]
      ++ (if updateFails then [.logError "update status"] else [])
      ++ [.waitDone],
    .returned⟩

/-- The way out of `daemonJob.do`, given how the loop ended.  After a `break`:
`t.Stop()`, then `d.daemon.PopJob(d.job.ID)`, then the deferred function; a
`PopJob` that waits forever keeps `do` from returning.  After a panic in the
loop the deferred function runs directly. -/
def daemonJob.doLeave (dm : Daemon) (d : daemonJob) (loopExit : Exit)
    (updateFails : Bool) : Run DoState :=
  match loopExit with
  | .returned =>
    let p := dm.PopJob d.job.ID
    match p.exit with
    | .returned =>
      let f := daemonJob.doDeferred p.state d false updateFails
      ⟨f.state, .tickerStop :: p.trace ++ f.trace, f.exit⟩
    | .panicked =>
      let f := daemonJob.doDeferred p.state d true updateFails
      ⟨f.state, .tickerStop :: p.trace ++ f.trace, f.exit⟩
    | e => ⟨{ daemon := p.state, task := d }, .tickerStop :: p.trace, e⟩
  | .panicked => daemonJob.doDeferred dm d true updateFails
  | e => ⟨{ daemon := dm, task := d }, [], e⟩

/-- The method `daemonJob.do(ctx)` run against a supervisor that no other
goroutine touches meanwhile: entry, loop, way out.  `runFails` and `stopFails`
say whether the two status updates fail. -/
def daemonJob.do_ (cfg : Config) (dm : Daemon) (d : daemonJob) (runFails stopFails : Bool)
    (its : List Iter) : Run DoState :=
  let e := daemonJob.doEnter dm d runFails
  let l := daemonJob.doLoop cfg e.state.task its
  let x := daemonJob.doLeave e.state.daemon l.state l.exit stopFails
  ⟨x.state, e.trace ++ l.trace ++ x.trace, x.exit⟩

/-- The number of launcher invocations in a trace. -/
def launches : List Event → Nat
  | [] => 0
  | .launch _ _ :: rest => launches rest + 1
  | _ :: rest => launches rest

/-- The contexts cancelled in a trace, in order. -/
def cancels : List Event → List Nat
  | [] => []
  | .cancel c :: rest => c :: cancels rest
  | _ :: rest => cancels rest

/-- The retry loops started in a trace (job id and context), in order. -/
def started : List Event → List (Nat × Nat)
  | [] => []
  | .goDo j c :: rest => (j, c) :: started rest
  | _ :: rest => started rest

/-- Is the effect an RPC call. -/
def isRpc : Event → Bool
  | .sendMail _ => true
  | .apiPost _ => true
  | _ => false

/-- The RPC calls issued in a trace, in order. -/
def rpcs (tr : List Event) : List Event :=
  tr.filter isRpc

/-- The effects that `do` itself performs around the loop: the wait-group calls
and the status updates. -/
def bookkeeping : Event → Bool
  | .waitAdd => true
  | .waitDone => true
  | .update _ _ => true
  | _ => false

/-! ## Sample data -/

/-- A job record with the given id, restart policy and status, no notification. -/
def sampleJob (id : Nat) (failRestart : Bool) (status : JobStatus) : DaemonJob :=
  { ID := id, Name := "job", Commands := ["run"], WorkDir := "", WorkUser := "",
    WorkEnv := [], FailRestart := failRestart, ErrorMailNotify := false, MailTo := [],
    ErrorAPINotify := false, APITo := [], Status := status, CreatedAt := 0 }

/-- A supervisor with jobs 7 and 8 under supervision (contexts 0 and 1). -/
def sampleDaemon : Daemon :=
  { taskChannel := [], taskChannelLength := 4,
    taskMap := [(7, ⟨sampleJob 7 true .StatusJobRunning, some 0, 1⟩),
                (8, ⟨sampleJob 8 true .StatusJobRunning, some 1, 1⟩)],
    lock := false, wait := 2, ctxs := 2 }

/-- An iteration in which the launch returns an error after the context was
cancelled, a tick is waiting in the ticker channel, the runtime takes the tick
case of the select, and the store still has job 7 running. -/
def raceIter : Iter :=
  { launch := .returned (some "signal: killed"), mail := .ok, marshalFails := false,
    api := .ok, done := true, tick := true, pickDone := false, doneFirst := false,
    db := [sampleJob 7 true .StatusJobRunning] }

/-- A task whose job has both notifications configured. -/
def notifyTask : daemonJob :=
  { job := { sampleJob 7 false .StatusJobRunning with
               ErrorMailNotify := true, MailTo := ["ops@example.org"],
               ErrorAPINotify := true, APITo := ["http://hook.example.org"] },
    cancel := some 0, processNum := 1 }

/-- A configuration. -/
def sampleCfg : Config :=
  { LocalAddr := "node", AdminAddr := "admin", LogPath := "logs" }

/-- An iteration whose launcher invocation panics. -/
def panicIter : Iter :=
  { raceIter with launch := .panic, done := false }

/-- A new supervisor after the admission of job 7: the task is registered with
context 0 and its retry loop is started. -/
def admittedDaemon : Daemon :=
  (Daemon.process { newDaemon 2 with
    taskChannel := [freshTask (sampleJob 7 true .StatusJobRunning)] }).state

/-- Task A: job 7 as admitted into `admittedDaemon`. -/
def taskA : daemonJob :=
  { job := sampleJob 7 true .StatusJobRunning, cancel := some 0, processNum := 0 }

/-- The halt of task A while it is inside its loop: `PopJob(7)` on the
supervisor that A has entered. -/
def haltA : Run Daemon :=
  Daemon.PopJob (daemonJob.doEnter admittedDaemon taskA false).state.daemon 7

/-- The re-admission of job 7 as task B (a record with `FailRestart` false)
after the halt of A: `add`, then the admission loop. -/
def readmitB : Run Daemon :=
  Daemon.process (Daemon.add haltA.state (some (freshTask (sampleJob 7 false .StatusJobRunning)))).state

/-- Task A leaving its loop by `break` after B was admitted. -/
def exitA : Run DoState :=
  daemonJob.doLeave readmitB.state (daemonJob.doEnter admittedDaemon taskA false).state.task
    .returned false

/-- A supervisor in which job 7 has been stored and the mutex released, but the
cancel function has not been assigned to the task yet (`Daemon.process` between
its `Unlock()` and the assignment of `v.cancel`). -/
def unattachedDaemon : Daemon :=
  { newDaemon 4 with taskMap := [(7, freshTask (sampleJob 7 false .StatusJobRunning))] }

/-- A new supervisor after two admissions of job 7 (`FailRestart` false): the
task is registered with context 0 and the second admission has left the mutex
held. -/
def heldDaemon : Daemon :=
  (Daemon.process { newDaemon 4 with
    taskChannel := [freshTask (sampleJob 7 false .StatusJobRunning),
                    freshTask (sampleJob 7 false .StatusJobRunning)] }).state

/-- The task of job 7 as registered in `heldDaemon`. -/
def heldTask : daemonJob :=
  { job := sampleJob 7 false .StatusJobRunning, cancel := some 0, processNum := 0 }

/-- An iteration in which the launch succeeds, nothing is cancelled and the
select takes the tick. -/
def plainIter : Iter :=
  { launch := .returned none, mail := .ok, marshalFails := false, api := .ok,
    done := false, tick := true, pickDone := false, doneFirst := false,
    db := [sampleJob 7 false .StatusJobRunning] }

/-! ## The registry as a map -/

theorem mapGet_mapDelete_self (m : TaskMap) (k : Nat) : mapGet (mapDelete m k) k = none := by
  induction m with
  | nil => rfl
  | cons e rest ih =>
    obtain ⟨k1, v⟩ := e
    by_cases h : k1 = k
    · simp [mapDelete, h, ih]
    · simp [mapDelete, h, mapGet, ih]

theorem mapGet_mapDelete_ne (m : TaskMap) (k k2 : Nat) (hne : k2 ≠ k) :
    mapGet (mapDelete m k) k2 = mapGet m k2 := by
  induction m with
  | nil => rfl
  | cons e rest ih =>
    obtain ⟨k1, v⟩ := e
    by_cases h : k1 = k
    · subst h
      have h2 : ¬ k1 = k2 := fun h3 => hne h3.symm
      simp [mapDelete, mapGet, h2, ih]
    · by_cases h2 : k1 = k2
      · subst h2
        simp [mapDelete, mapGet, h]
      · simp [mapDelete, mapGet, h2, h, ih]

theorem mapDelete_of_absent (m : TaskMap) (k : Nat) (h : mapGet m k = none) :
    mapDelete m k = m := by
  induction m with
  | nil => rfl
  | cons e rest ih =>
    obtain ⟨k1, v⟩ := e
    by_cases h1 : k1 = k
    · simp [mapGet, h1] at h
    · simp only [mapGet, h1, if_false] at h
      simp [mapDelete, h1, ih h]

theorem mapGet_mapStore_self (m : TaskMap) (k : Nat) (v : daemonJob) :
    mapGet (mapStore m k v) k = some v := by
  simp [mapStore, mapGet]

theorem mapGet_mapStore_ne (m : TaskMap) (k k2 : Nat) (v : daemonJob) (hne : k2 ≠ k) :
    mapGet (mapStore m k v) k2 = mapGet m k2 := by
  have h : k ≠ k2 := fun h => hne h.symm
  simp [mapStore, mapGet, h, mapGet_mapDelete_ne m k k2 hne]

theorem mapDelete_no_key (m : TaskMap) (k : Nat) :
    (mapDelete m k).filter (fun e => decide (e.1 = k)) = [] := by
  induction m with
  | nil => rfl
  | cons e rest ih =>
    obtain ⟨k1, v⟩ := e
    by_cases h : k1 = k
    · simp [mapDelete, h, ih]
    · simp [mapDelete, List.filter_cons, h, ih]

/-! ## Halt -/

/-- C2, as stated, fails in two registry states.  When the entry of job 7 has
no cancel function yet, `PopJob(7)` deletes the entry, unlocks and then calls the
nil function: it panics and no cancellation handle is invoked.  When the mutex
is held (after a duplicate admission), `PopJob(7)` waits at `Lock()`: the entry
is not deleted and nothing is cancelled. -/
theorem PopJob_fails_without_handle_or_mutex :
    (unattachedDaemon.lock = false ∧
     mapGet unattachedDaemon.taskMap 7 = some (freshTask (sampleJob 7 false .StatusJobRunning)) ∧
     (unattachedDaemon.PopJob 7).exit = .panicked ∧
     (unattachedDaemon.PopJob 7).trace = [.lock, .mapDelete 7, .unlock] ∧
     cancels (unattachedDaemon.PopJob 7).trace = []) ∧
    (heldDaemon.lock = true ∧
     mapGet heldDaemon.taskMap 7 = some heldTask ∧
     (heldDaemon.PopJob 7).exit = .blocked ∧
     mapGet (heldDaemon.PopJob 7).state.taskMap 7 = some heldTask ∧
     cancels (heldDaemon.PopJob 7).trace = []) := by
  refine ⟨⟨?_, ?_, ?_, ?_, ?_⟩, ?_, ?_, ?_, ?_, ?_⟩ <;> rfl

/-- C2, amended. With the registry mutex free at the call, `PopJob(id)` on an id
with an entry whose cancel function is attached deletes that entry and no other,
calls the task's cancel function once, after the deletion and the unlock; on an
id with no entry it changes nothing and cancels nothing; and a second
`PopJob(id)` changes neither the registry nor the cancellations of the first. -/
theorem PopJob_idempotent (d : Daemon) (jobID : Nat) (hfree : d.lock = false) :
    (∀ t c, mapGet d.taskMap jobID = some t → t.cancel = some c →
      d.PopJob jobID =
        ⟨{ d with taskMap := mapDelete d.taskMap jobID },
          [.lock, .mapDelete jobID, .unlock, .cancel c], .returned⟩ ∧
      mapGet (d.PopJob jobID).state.taskMap jobID = none ∧
      (∀ k, k ≠ jobID → mapGet (d.PopJob jobID).state.taskMap k = mapGet d.taskMap k) ∧
      cancels (d.PopJob jobID).trace = [c]) ∧
    (mapGet d.taskMap jobID = none → d.PopJob jobID = ⟨d, [.lock, .unlock], .returned⟩) ∧
    ((d.PopJob jobID).state.PopJob jobID).state = (d.PopJob jobID).state ∧
    ((d.PopJob jobID).state.PopJob jobID).exit = .returned ∧
    cancels ((d.PopJob jobID).trace ++ ((d.PopJob jobID).state.PopJob jobID).trace)
      = cancels (d.PopJob jobID).trace := by
  refine ⟨?_, ?_, ?_⟩
  · intro t c ht hc
    have hp : d.PopJob jobID =
        ⟨{ d with taskMap := mapDelete d.taskMap jobID },
          [.lock, .mapDelete jobID, .unlock, .cancel c], .returned⟩ := by
      simp [Daemon.PopJob, hfree, ht, hc]
    refine ⟨hp, ?_, ?_, ?_⟩
    · rw [hp]; exact mapGet_mapDelete_self _ _
    · intro k hk; rw [hp]; exact mapGet_mapDelete_ne _ _ _ hk
    · rw [hp]; rfl
  · intro hn
    simp [Daemon.PopJob, hfree, hn]
  · cases ht : mapGet d.taskMap jobID with
    | none =>
      have hp : d.PopJob jobID = ⟨d, [.lock, .unlock], .returned⟩ := by
        simp [Daemon.PopJob, hfree, ht]
      simp [hp, cancels]
    | some t =>
      cases hc : t.cancel with
      | none =>
        have hp : d.PopJob jobID =
            ⟨{ d with taskMap := mapDelete d.taskMap jobID },
              [.lock, .mapDelete jobID, .unlock], .panicked⟩ := by
          simp [Daemon.PopJob, hfree, ht, hc]
        have h2 : Daemon.PopJob { d with taskMap := mapDelete d.taskMap jobID } jobID =
            ⟨{ d with taskMap := mapDelete d.taskMap jobID }, [.lock, .unlock], .returned⟩ := by
          simp [Daemon.PopJob, hfree, mapGet_mapDelete_self]
        simp [hp, h2, cancels]
      | some c =>
        have hp : d.PopJob jobID =
            ⟨{ d with taskMap := mapDelete d.taskMap jobID },
              [.lock, .mapDelete jobID, .unlock, .cancel c], .returned⟩ := by
          simp [Daemon.PopJob, hfree, ht, hc]
        have h2 : Daemon.PopJob { d with taskMap := mapDelete d.taskMap jobID } jobID =
            ⟨{ d with taskMap := mapDelete d.taskMap jobID }, [.lock, .unlock], .returned⟩ := by
          simp [Daemon.PopJob, hfree, mapGet_mapDelete_self]
        simp [hp, h2, cancels]

/-- Witness of C2: job 7 registered with context 0, next to job 8. -/
theorem PopJob_idempotent_witness :
    sampleDaemon.lock = false ∧
    sampleDaemon.PopJob 7 =
      ⟨{ sampleDaemon with taskMap := [(8, ⟨sampleJob 8 true .StatusJobRunning, some 1, 1⟩)] },
        [.lock, .mapDelete 7, .unlock, .cancel 0], .returned⟩ :=
  ⟨rfl, ((PopJob_idempotent sampleDaemon 7 rfl).1
    ⟨sampleJob 7 true .StatusJobRunning, some 0, 1⟩ 0 rfl rfl).1⟩

/-! ## Admission -/

theorem processFrom_duplicates (vs : List daemonJob) (d : Daemon)
    (hdup : ∀ w ∈ vs, ∃ t, mapGet d.taskMap w.job.ID = some t) :
    (d.processFrom vs).state.taskMap = d.taskMap ∧ started (d.processFrom vs).trace = [] := by
  induction vs generalizing d with
  | nil => exact ⟨rfl, rfl⟩
  | cons w rest ih =>
    obtain ⟨t, ht⟩ := hdup w (List.mem_cons_self _ _)
    have hrest : ∀ u ∈ rest, ∃ t, mapGet d.taskMap u.job.ID = some t :=
      fun u hu => hdup u (List.mem_cons_of_mem _ hu)
    cases hl : d.lock with
    | true => simp [Daemon.processFrom, Daemon.processBody, hl, started]
    | false =>
      have hb : Daemon.processBody { d with taskChannel := rest } w =
          ⟨{ d with taskChannel := rest, lock := true }, [.lock], .returned⟩ := by
        simp [Daemon.processBody, hl, ht]
      have h2 := ih { d with taskChannel := rest, lock := true } hrest
      simp only [Daemon.processFrom, hb]
      exact ⟨h2.1, by simpa [started] using h2.2⟩

/-- C1. From a registry with no entry for a job id and a free mutex, the
admission loop fed with N ≥ 1 tasks of that id leaves exactly one entry for the
id, the first task with a fresh cancel function, and starts exactly one retry
loop; and the loop body, given a task whose id has an entry, neither changes
the registry nor starts a loop. -/
theorem process_single_instance (d : Daemon) (v : daemonJob) (vs : List daemonJob)
    (hfree : d.lock = false) (hnew : mapGet d.taskMap v.job.ID = none)
    (hsame : ∀ w ∈ vs, w.job.ID = v.job.ID) :
    mapGet (Daemon.process { d with taskChannel := v :: vs }).state.taskMap v.job.ID
      = some { v with cancel := some d.ctxs } ∧
    ((Daemon.process { d with taskChannel := v :: vs }).state.taskMap.filter
      (fun e => decide (e.1 = v.job.ID))).length = 1 ∧
    started (Daemon.process { d with taskChannel := v :: vs }).trace = [(v.job.ID, d.ctxs)] ∧
    (∀ (d1 : Daemon) (w t : daemonJob), mapGet d1.taskMap w.job.ID = some t →
      (d1.processBody w).state.taskMap = d1.taskMap ∧ started (d1.processBody w).trace = []) := by
  have hb : Daemon.processBody { d with taskChannel := vs } v =
      ⟨{ d with taskChannel := vs,
                taskMap := mapStore d.taskMap v.job.ID { v with cancel := some d.ctxs },
                ctxs := d.ctxs + 1 },
        [.lock, .mapStore v.job.ID, .unlock, .withCancel d.ctxs, .goDo v.job.ID d.ctxs],
        .returned⟩ := by
    simp [Daemon.processBody, hfree, hnew]
  have hdup : ∀ w ∈ vs, ∃ t, mapGet (mapStore d.taskMap v.job.ID
      { v with cancel := some d.ctxs }) w.job.ID = some t := by
    intro w hw
    rw [hsame w hw]
    exact ⟨_, mapGet_mapStore_self _ _ _⟩
  have h2 := processFrom_duplicates vs
    { d with taskChannel := vs,
             taskMap := mapStore d.taskMap v.job.ID { v with cancel := some d.ctxs },
             ctxs := d.ctxs + 1 } hdup
  have hmap : (Daemon.process { d with taskChannel := v :: vs }).state.taskMap =
      mapStore d.taskMap v.job.ID { v with cancel := some d.ctxs } := by
    simp only [Daemon.process, Daemon.processFrom, hb]
    exact h2.1
  have htr : started (Daemon.process { d with taskChannel := v :: vs }).trace
      = [(v.job.ID, d.ctxs)] := by
    simp only [Daemon.process, Daemon.processFrom, hb]
    simpa [started] using h2.2
  refine ⟨?_, ?_, htr, ?_⟩
  · rw [hmap]; exact mapGet_mapStore_self _ _ _
  · rw [hmap]
    simp [mapStore, List.filter_cons, mapDelete_no_key]
  · intro d1 w t ht
    cases hl : d1.lock with
    | true => simp [Daemon.processBody, hl, started]
    | false => simp [Daemon.processBody, hl, ht, started]

/-- Witness of C1: three admissions of job 7 into a new supervisor. -/
theorem process_single_instance_witness :
    started (Daemon.process { newDaemon 4 with taskChannel :=
        [freshTask (sampleJob 7 true .StatusJobRunning),
         freshTask (sampleJob 7 true .StatusJobRunning),
         freshTask (sampleJob 7 false .StatusJobRunning)] }).trace = [(7, 0)] :=
  (process_single_instance (newDaemon 4) (freshTask (sampleJob 7 true .StatusJobRunning))
    [freshTask (sampleJob 7 true .StatusJobRunning),
     freshTask (sampleJob 7 false .StatusJobRunning)] rfl rfl
    (by intro w hw; simp at hw; rcases hw with h | h <;> subst h <;> rfl)).2.2.1

/-- C9, evaluated: two admissions of job 7 into a new supervisor.  The second
one finds the entry and its iteration ends with the mutex still held; after
that `PopJob`, `count` and the admission of another job never get the mutex. -/
theorem process_duplicate_keeps_mutex :
    (Daemon.process { newDaemon 4 with taskChannel :=
        [freshTask (sampleJob 7 true .StatusJobRunning),
         freshTask (sampleJob 7 true .StatusJobRunning)] }).exit = .idle ∧
    (Daemon.process { newDaemon 4 with taskChannel :=
        [freshTask (sampleJob 7 true .StatusJobRunning),
         freshTask (sampleJob 7 true .StatusJobRunning)] }).state.lock = true ∧
    (Daemon.process { newDaemon 4 with taskChannel :=
        [freshTask (sampleJob 7 true .StatusJobRunning),
         freshTask (sampleJob 7 true .StatusJobRunning)] }).trace =
      [.lock, .mapStore 7, .unlock, .withCancel 0, .goDo 7 0, .lock] ∧
    ((Daemon.process { newDaemon 4 with taskChannel :=
        [freshTask (sampleJob 7 true .StatusJobRunning),
         freshTask (sampleJob 7 true .StatusJobRunning)] }).state.PopJob 7).exit = .blocked ∧
    ((Daemon.process { newDaemon 4 with taskChannel :=
        [freshTask (sampleJob 7 true .StatusJobRunning),
         freshTask (sampleJob 7 true .StatusJobRunning)] }).state.count).exit = .blocked ∧
    ((Daemon.process { newDaemon 4 with taskChannel :=
        [freshTask (sampleJob 7 true .StatusJobRunning),
         freshTask (sampleJob 7 true .StatusJobRunning)] }).state.processBody
          (freshTask (sampleJob 8 true .StatusJobRunning))).exit = .blocked ∧
    (Daemon.process { newDaemon 4 with taskChannel :=
        [freshTask (sampleJob 7 true .StatusJobRunning),
         freshTask (sampleJob 7 true .StatusJobRunning),
         freshTask (sampleJob 8 true .StatusJobRunning)] }).exit = .blocked ∧
    mapGet (Daemon.process { newDaemon 4 with taskChannel :=
        [freshTask (sampleJob 7 true .StatusJobRunning),
         freshTask (sampleJob 7 true .StatusJobRunning),
         freshTask (sampleJob 8 true .StatusJobRunning)] }).state.taskMap 8 = none := by
  refine ⟨?_, ?_, ?_, ?_, ?_, ?_, ?_, ?_⟩ <;> rfl

/-! ## Boot recovery -/

theorem addAll_fits (js : List DaemonJob) (d : Daemon)
    (hfit : d.taskChannel.length + js.length ≤ d.taskChannelLength) :
    d.addAll js =
      ⟨{ d with taskChannel := d.taskChannel ++ js.map freshTask },
        js.map (fun j => Event.chanSend j.ID), .returned⟩ := by
  induction js generalizing d with
  | nil => simp [Daemon.addAll]
  | cons j rest ih =>
    have hlt : d.taskChannel.length < d.taskChannelLength := by
      simp only [List.length_cons] at hfit; omega
    have hadd : d.add (some (freshTask j)) =
        ⟨{ d with taskChannel := d.taskChannel ++ [freshTask j] },
          [.chanSend (freshTask j).job.ID], .returned⟩ := by
      simp [Daemon.add, hlt]
    have h2 := ih { d with taskChannel := d.taskChannel ++ [freshTask j] }
      (by simp only [List.length_append, List.length_cons, List.length_nil] at hfit ⊢; omega)
    simp only [Daemon.addAll, hadd, h2]
    simp [freshTask]

theorem processFrom_distinct (vs : List daemonJob) (d : Daemon) (hfree : d.lock = false)
    (hnew : ∀ v ∈ vs, mapGet d.taskMap v.job.ID = none)
    (hdistinct : (vs.map (fun v => v.job.ID)).Nodup) :
    (d.processFrom vs).exit = .idle ∧ (d.processFrom vs).state.lock = false ∧
    (started (d.processFrom vs).trace).map Prod.fst = vs.map (fun v => v.job.ID) ∧
    (∀ v ∈ vs, ∃ c, mapGet (d.processFrom vs).state.taskMap v.job.ID
        = some { v with cancel := some c } ∧ (v.job.ID, c) ∈ started (d.processFrom vs).trace) ∧
    (∀ k, k ∉ vs.map (fun v => v.job.ID) →
      mapGet (d.processFrom vs).state.taskMap k = mapGet d.taskMap k) := by
  induction vs generalizing d with
  | nil =>
    refine ⟨rfl, hfree, rfl, ?_, ?_⟩
    · intro v hv; cases hv
    · intro k _; rfl
  | cons v rest ih =>
    have hb : Daemon.processBody { d with taskChannel := rest } v =
        ⟨{ d with taskChannel := rest,
                  taskMap := mapStore d.taskMap v.job.ID { v with cancel := some d.ctxs },
                  ctxs := d.ctxs + 1 },
          [.lock, .mapStore v.job.ID, .unlock, .withCancel d.ctxs, .goDo v.job.ID d.ctxs],
          .returned⟩ := by
      simp [Daemon.processBody, hfree, hnew v (List.mem_cons_self _ _)]
    rw [List.map_cons, List.nodup_cons] at hdistinct
    have hne : ∀ w ∈ rest, w.job.ID ≠ v.job.ID := by
      intro w hw heq
      exact hdistinct.1 (heq ▸ List.mem_map_of_mem (fun v => v.job.ID) hw)
    obtain ⟨h1, h2, h3, h4, h5⟩ := ih
      { d with taskChannel := rest,
               taskMap := mapStore d.taskMap v.job.ID { v with cancel := some d.ctxs },
               ctxs := d.ctxs + 1 } hfree
      (by
        intro w hw
        show mapGet (mapStore d.taskMap v.job.ID _) w.job.ID = none
        rw [mapGet_mapStore_ne _ _ _ _ (hne w hw)]
        exact hnew w (List.mem_cons_of_mem _ hw))
      hdistinct.2
    simp only [Daemon.processFrom, hb]
    refine ⟨h1, h2, ?_, ?_, ?_⟩
    · simpa [started] using h3
    · intro w hw
      rcases List.mem_cons.mp hw with hwv | hwr
      · subst hwv
        refine ⟨d.ctxs, ?_, by simp [started]⟩
        rw [h5 w.job.ID hdistinct.1]
        exact mapGet_mapStore_self _ _ _
      · obtain ⟨c, hc1, hc2⟩ := h4 w hwr
        exact ⟨c, hc1, by simp [started, hc2]⟩
    · intro k hk
      rw [List.map_cons, List.mem_cons, not_or] at hk
      rw [h5 k hk.2]
      exact mapGet_mapStore_ne _ _ _ _ hk.1

theorem processFrom_channel_empty (vs : List daemonJob) (d : Daemon)
    (hidle : (d.processFrom vs).exit = .idle) : (d.processFrom vs).state.taskChannel = [] := by
  induction vs generalizing d with
  | nil => rfl
  | cons v rest ih =>
    simp only [Daemon.processFrom] at hidle ⊢
    cases hl : d.lock with
    | true => simp [Daemon.processBody, hl] at hidle
    | false =>
      cases hg : mapGet d.taskMap v.job.ID with
      | none =>
        simp only [Daemon.processBody, hl, hg] at hidle ⊢
        exact ih _ hidle
      | some t =>
        simp only [Daemon.processBody, hl, hg] at hidle ⊢
        exact ih _ hidle

/-- C7, as stated, fails: a supervisor built with capacity 1 and a store with
two running records (ids 1 and 2).  The second `add` waits for a receiver that
`run` has not started yet, so `process` is never reached: nothing is registered
and no retry loop is started. -/
theorem run_blocks_when_channel_full :
    (([sampleJob 1 true .StatusJobRunning, sampleJob 2 true .StatusJobRunning].map
        (fun j => j.ID)).Nodup) ∧
    ((newDaemon 1).run [sampleJob 1 true .StatusJobRunning,
        sampleJob 2 true .StatusJobRunning] false).exit = .blocked ∧
    ((newDaemon 1).run [sampleJob 1 true .StatusJobRunning,
        sampleJob 2 true .StatusJobRunning] false).state.taskMap = [] ∧
    started ((newDaemon 1).run [sampleJob 1 true .StatusJobRunning,
        sampleJob 2 true .StatusJobRunning] false).trace = [] := by
  refine ⟨by decide, ?_, ?_, ?_⟩ <;> rfl

/-- C7, amended. For every store whose running records have distinct ids and
are no more than the capacity the supervisor was built with, `run` enqueues one
fresh task per record, reaches `process`, and the admission loop drains the
channel: every one of those ids has a registry entry (the fresh task with a
cancel function) and a started retry loop, one loop per record. -/
theorem run_boot_recovery (cap : Nat) (db : DB)
    (hdistinct : ((DB.find db .StatusJobRunning).map (fun j => j.ID)).Nodup)
    (hcap : (DB.find db .StatusJobRunning).length ≤ cap) :
    (newDaemon cap).addAll (DB.find db .StatusJobRunning) =
      ⟨{ newDaemon cap with taskChannel := (DB.find db .StatusJobRunning).map freshTask },
        (DB.find db .StatusJobRunning).map (fun j => Event.chanSend j.ID), .returned⟩ ∧
    ((newDaemon cap).run db false).exit = .idle ∧
    ((newDaemon cap).run db false).state.taskChannel = [] ∧
    (started ((newDaemon cap).run db false).trace).map Prod.fst
      = (DB.find db .StatusJobRunning).map (fun j => j.ID) ∧
    (∀ j ∈ DB.find db .StatusJobRunning, ∃ c,
      mapGet ((newDaemon cap).run db false).state.taskMap j.ID
        = some { freshTask j with cancel := some c } ∧
      (j.ID, c) ∈ started ((newDaemon cap).run db false).trace) := by
  have hadd := addAll_fits (DB.find db .StatusJobRunning) (newDaemon cap)
    (by simpa [newDaemon] using hcap)
  have hadd2 : (newDaemon cap).addAll (DB.find db .StatusJobRunning) =
      ⟨{ newDaemon cap with taskChannel := (DB.find db .StatusJobRunning).map freshTask },
        (DB.find db .StatusJobRunning).map (fun j => Event.chanSend j.ID), .returned⟩ := by
    rw [hadd]; simp [newDaemon]
  have hids : ((DB.find db .StatusJobRunning).map freshTask).map (fun v => v.job.ID)
      = (DB.find db .StatusJobRunning).map (fun j => j.ID) := by
    simp [List.map_map, Function.comp_def, freshTask]
  obtain ⟨h1, _, h3, h4, _⟩ := processFrom_distinct
    ((DB.find db .StatusJobRunning).map freshTask)
    { newDaemon cap with taskChannel := (DB.find db .StatusJobRunning).map freshTask }
    rfl (fun v _ => rfl) (by rw [hids]; exact hdistinct)
  have hrun : (newDaemon cap).run db false =
      ⟨(Daemon.processFrom { newDaemon cap with
            taskChannel := (DB.find db .StatusJobRunning).map freshTask }
          ((DB.find db .StatusJobRunning).map freshTask)).state,
        (DB.find db .StatusJobRunning).map (fun j => Event.chanSend j.ID) ++
          (Daemon.processFrom { newDaemon cap with
            taskChannel := (DB.find db .StatusJobRunning).map freshTask }
          ((DB.find db .StatusJobRunning).map freshTask)).trace,
        (Daemon.processFrom { newDaemon cap with
            taskChannel := (DB.find db .StatusJobRunning).map freshTask }
          ((DB.find db .StatusJobRunning).map freshTask)).exit⟩ := by
    simp [Daemon.run, hadd2, Daemon.process]
  have hsends : ∀ js : List DaemonJob, ∀ tr : List Event,
      started (js.map (fun j => Event.chanSend j.ID) ++ tr) = started tr := by
    intro js tr
    induction js with
    | nil => rfl
    | cons j rest ih => simpa [started] using ih
  refine ⟨hadd2, ?_, ?_, ?_, ?_⟩
  · rw [hrun]; exact h1
  · rw [hrun]
    exact processFrom_channel_empty _ _ h1
  · rw [hrun]
    simp only [hsends]
    rw [h3, hids]
  · intro j hj
    obtain ⟨c, hc1, hc2⟩ := h4 (freshTask j) (List.mem_map_of_mem freshTask hj)
    refine ⟨c, ?_, ?_⟩
    · rw [hrun]; exact hc1
    · rw [hrun]; simp only [hsends]; exact hc2

/-- Witness of C7 amended: two running records and one stopped one, capacity 2. -/
theorem run_boot_recovery_witness :
    ((newDaemon 2).run [sampleJob 1 true .StatusJobRunning, sampleJob 3 false .StatusJobStop,
        sampleJob 2 false .StatusJobRunning] false).exit = .idle ∧
    (started ((newDaemon 2).run [sampleJob 1 true .StatusJobRunning,
        sampleJob 3 false .StatusJobStop, sampleJob 2 false .StatusJobRunning] false).trace).map
        Prod.fst = [1, 2] :=
  ⟨(run_boot_recovery 2 [sampleJob 1 true .StatusJobRunning, sampleJob 3 false .StatusJobStop,
      sampleJob 2 false .StatusJobRunning] (by decide) (by decide)).2.1,
   (run_boot_recovery 2 [sampleJob 1 true .StatusJobRunning, sampleJob 3 false .StatusJobStop,
      sampleJob 2 false .StatusJobRunning] (by decide) (by decide)).2.2.2.1⟩

/-! ## The retry loop -/

theorem launches_append (a b : List Event) : launches (a ++ b) = launches a + launches b := by
  induction a with
  | nil => simp [launches]
  | cons e rest ih => cases e <;> simp [launches, ih]; omega

theorem launches_rpcLog (what : String) (r : RpcResult) : launches (rpcLog what r) = 0 := by
  cases r <;> rfl

theorem launches_handleNotify (cfg : Config) (d : daemonJob) (err : Option String)
    (mail : RpcResult) (marshalFails : Bool) (api : RpcResult) :
    launches (d.handleNotify cfg err mail marshalFails api).trace = 0 := by
  have hm : launches (d.notifyMail cfg mail) = 0 := by
    unfold daemonJob.notifyMail
    split
    · simp [launches_append, launches, launches_rpcLog]
    · rfl
  have ha : launches (d.notifyApi cfg marshalFails api) = 0 := by
    unfold daemonJob.notifyApi
    split
    · cases marshalFails <;> simp [launches_append, launches, launches_rpcLog]
    · rfl
  unfold daemonJob.handleNotify
  cases err with
  | none => rfl
  | some e =>
    simp only
    split
    · exact hm
    · split <;> simp [launches_append, hm, ha]

theorem doLoop_launches_pos (cfg : Config) (d : daemonJob) (it : Iter) (rest : List Iter) :
    1 ≤ launches (daemonJob.doLoop cfg d (it :: rest)).trace := by
  unfold daemonJob.doLoop
  cases it.launch with
  | panic => simp [launches]
  | returned err =>
    simp only
    split
    · split
      · simp [launches]
      · split <;> simp [launches]
    · simp [launches]

/-- C6. After a launcher invocation that returned and a notification that
returned, the loop launches again exactly when the select did not observe
cancellation, `FailRestart` is true and the re-fetch by (id, status running)
succeeds; otherwise it leaves the loop after that single launch.  So with
`FailRestart` false there is exactly one launch whatever error the run
returned, and a record that is not running at the re-fetch stops the task
without another launch. -/
theorem doLoop_relaunch_decision (cfg : Config) (d : daemonJob) (it it2 : Iter)
    (rest : List Iter) (err : Option String) (hlaunch : it.launch = .returned err)
    (hnotify : (d.handleNotify cfg err it.mail it.marshalFails it.api).exit = .returned) :
    (2 ≤ launches (daemonJob.doLoop cfg d (it :: it2 :: rest)).trace ↔
      (selectStop it = false ∧ d.job.FailRestart = true ∧
        (DB.take it.db d.job.ID .StatusJobRunning).isSome = true)) ∧
    (¬ (selectStop it = false ∧ d.job.FailRestart = true ∧
        (DB.take it.db d.job.ID .StatusJobRunning).isSome = true) →
      launches (daemonJob.doLoop cfg d (it :: it2 :: rest)).trace = 1 ∧
      (daemonJob.doLoop cfg d (it :: it2 :: rest)).exit = .returned) ∧
    (∀ r, selectStop it = false → d.job.FailRestart = true →
      DB.take it.db d.job.ID .StatusJobRunning = some r →
      launches (daemonJob.doLoop cfg d (it :: it2 :: rest)).trace
        = 1 + launches (daemonJob.doLoop cfg { d with job := r } (it2 :: rest)).trace) ∧
    (d.job.FailRestart = false →
      launches (daemonJob.doLoop cfg d (it :: it2 :: rest)).trace = 1 ∧
      (daemonJob.doLoop cfg d (it :: it2 :: rest)).exit = .returned) ∧
    ((∀ r ∈ it.db, r.ID = d.job.ID → r.Status ≠ .StatusJobRunning) →
      launches (daemonJob.doLoop cfg d (it :: it2 :: rest)).trace = 1 ∧
      (daemonJob.doLoop cfg d (it :: it2 :: rest)).exit = .returned) := by
  have hn0 := launches_handleNotify cfg d err it.mail it.marshalFails it.api
  have hstop : ¬ (selectStop it = false ∧ d.job.FailRestart = true ∧
        (DB.take it.db d.job.ID .StatusJobRunning).isSome = true) →
      launches (daemonJob.doLoop cfg d (it :: it2 :: rest)).trace = 1 ∧
      (daemonJob.doLoop cfg d (it :: it2 :: rest)).exit = .returned := by
    intro hc
    rw [daemonJob.doLoop]
    simp only [hlaunch, hnotify]
    by_cases h1 : selectStop it = true
    · simp [h1, launches, hn0]
    · by_cases h2 : d.job.FailRestart = false
      · simp [h2, launches, hn0]
      · have h1f : selectStop it = false := by simpa using h1
        have h2t : d.job.FailRestart = true := by simpa using h2
        have h3 : DB.take it.db d.job.ID .StatusJobRunning = none := by
          cases ht : DB.take it.db d.job.ID .StatusJobRunning with
          | none => rfl
          | some r => exact absurd ⟨h1f, h2t, by simp [ht]⟩ hc
        simp [h1f, h2t, daemonJob.syncJob, h3, launches, hn0]
  have hgo : ∀ r, selectStop it = false → d.job.FailRestart = true →
      DB.take it.db d.job.ID .StatusJobRunning = some r →
      launches (daemonJob.doLoop cfg d (it :: it2 :: rest)).trace
        = 1 + launches (daemonJob.doLoop cfg { d with job := r } (it2 :: rest)).trace := by
    intro r h1 h2 h3
    rw [daemonJob.doLoop]
    simp only [hlaunch, hnotify]
    simp [h1, h2, daemonJob.syncJob, h3, launches, launches_append, hn0]
    omega
  refine ⟨⟨?_, ?_⟩, hstop, hgo, ?_, ?_⟩
  · intro h2
    by_contra hc
    have := (hstop hc).1
    omega
  · rintro ⟨h1, h2, h3⟩
    cases ht : DB.take it.db d.job.ID .StatusJobRunning with
    | none => simp [ht] at h3
    | some r =>
      rw [hgo r h1 h2 ht]
      have := doLoop_launches_pos cfg { d with job := r } it2 rest
      omega
  · intro hf
    exact hstop (by simp [hf])
  · intro hall
    apply hstop
    rintro ⟨_, _, h3⟩
    cases ht : DB.take it.db d.job.ID .StatusJobRunning with
    | none => simp [ht] at h3
    | some r =>
      have hr := List.find?_some ht
      have hmem := List.mem_of_find?_eq_some ht
      simp only [Bool.and_eq_true, decide_eq_true_eq] at hr
      exact hall r hmem hr.1 hr.2

/-- Witness of C6: job 7 restarts on failure and is running in the store; the
first select takes the tick, so there is a second launch. -/
theorem doLoop_relaunch_decision_witness :
    2 ≤ launches (daemonJob.doLoop sampleCfg taskA
      [{ raceIter with done := false }, { raceIter with tick := false }]).trace :=
  (doLoop_relaunch_decision sampleCfg taskA { raceIter with done := false }
    { raceIter with tick := false } [] (some "signal: killed") rfl rfl).1.mpr ⟨rfl, rfl, rfl⟩

/-- C5, as stated, fails: job 7 restarts on failure and is still marked running
in the store.  The context is cancelled during the first launch, which returns
an error; by then the ticker created at the start of `do` holds a tick, so both
cases of the select are ready and the runtime may take the tick: `stop` stays
false, the re-fetch succeeds and the launcher is invoked a second time. -/
theorem cancelled_task_relaunches :
    (raceIter.done = true ∧ raceIter.launch = .returned (some "signal: killed")) ∧
    launches (daemonJob.do_ sampleCfg sampleDaemon
      ⟨sampleJob 7 true .StatusJobRunning, some 0, 0⟩ false false
      [raceIter, { raceIter with tick := false }]).trace = 2 ∧
    (daemonJob.do_ sampleCfg sampleDaemon
      ⟨sampleJob 7 true .StatusJobRunning, some 0, 0⟩ false false
      [raceIter, { raceIter with tick := false }]).exit = .returned := by
  refine ⟨⟨rfl, rfl⟩, ?_, ?_⟩ <;> rfl

theorem PopJob_shape (dm : Daemon) (jobID : Nat) :
    dm.PopJob jobID = ⟨dm, [], .blocked⟩ ∨
    dm.PopJob jobID = ⟨dm, [.lock, .unlock], .returned⟩ ∨
    (∃ c, dm.PopJob jobID =
      ⟨{ dm with taskMap := mapDelete dm.taskMap jobID },
        [.lock, .mapDelete jobID, .unlock, .cancel c], .returned⟩) ∨
    dm.PopJob jobID =
      ⟨{ dm with taskMap := mapDelete dm.taskMap jobID },
        [.lock, .mapDelete jobID, .unlock], .panicked⟩ := by
  cases hl : dm.lock with
  | true => left; simp [Daemon.PopJob, hl]
  | false =>
    cases hg : mapGet dm.taskMap jobID with
    | none => right; left; simp [Daemon.PopJob, hl, hg]
    | some t =>
      cases hc : t.cancel with
      | none => right; right; right; simp [Daemon.PopJob, hl, hg, hc]
      | some c => right; right; left; exact ⟨c, by simp [Daemon.PopJob, hl, hg, hc]⟩

theorem launches_doLeave (dm : Daemon) (d : daemonJob) (loopExit : Exit) (updateFails : Bool) :
    launches (daemonJob.doLeave dm d loopExit updateFails).trace = 0 := by
  cases loopExit with
  | returned =>
    rcases PopJob_shape dm d.job.ID with h | h | ⟨c, h⟩ | h <;>
      cases updateFails <;> simp [daemonJob.doLeave, h, daemonJob.doDeferred, launches]
  | panicked => cases updateFails <;> simp [daemonJob.doLeave, daemonJob.doDeferred, launches]
  | blocked => simp [daemonJob.doLeave, launches]
  | idle => simp [daemonJob.doLeave, launches]
  | running => simp [daemonJob.doLeave, launches]

theorem doLeave_not_running (dm : Daemon) (d : daemonJob) (loopExit : Exit)
    (updateFails : Bool) (h : loopExit ≠ .running) :
    (daemonJob.doLeave dm d loopExit updateFails).exit ≠ .running := by
  cases loopExit with
  | returned =>
    rcases PopJob_shape dm d.job.ID with h | h | ⟨c, h⟩ | h <;>
      simp [daemonJob.doLeave, h, daemonJob.doDeferred]
  | panicked => simp [daemonJob.doLeave, daemonJob.doDeferred]
  | blocked => simp [daemonJob.doLeave]
  | idle => simp [daemonJob.doLeave]
  | running => exact absurd rfl h

/-- C5, amended. If the context is cancelled before the first launcher
invocation returns and the ticker holds no tick when the select is reached,
then the select observes the cancellation: the launcher is invoked exactly once
in total and the loop is left, whatever `FailRestart` and the persisted status
are. -/
theorem cancelled_without_tick_launches_once (cfg : Config) (dm : Daemon) (d : daemonJob)
    (runFails stopFails : Bool) (it : Iter) (rest : List Iter)
    (hdone : it.done = true) (htick : it.tick = false) :
    selectStop it = true ∧
    launches (daemonJob.do_ cfg dm d runFails stopFails (it :: rest)).trace = 1 ∧
    (daemonJob.doLoop cfg { d with processNum := 1 } (it :: rest)).exit ≠ .running ∧
    (daemonJob.do_ cfg dm d runFails stopFails (it :: rest)).exit ≠ .running := by
  have hsel : selectStop it = true := by simp [selectStop, hdone, htick]
  have hloop : launches (daemonJob.doLoop cfg { d with processNum := 1 } (it :: rest)).trace = 1 ∧
      (daemonJob.doLoop cfg { d with processNum := 1 } (it :: rest)).exit ≠ .running := by
    rw [daemonJob.doLoop]
    cases hl : it.launch with
    | panic => simp [launches]
    | returned err =>
      have hn0 := launches_handleNotify cfg { d with processNum := 1 } err it.mail
        it.marshalFails it.api
      simp only
      split
      · simp [hsel, launches, hn0]
      · simp [launches, hn0]
  refine ⟨hsel, ?_, hloop.2, ?_⟩
  · simp only [daemonJob.do_, daemonJob.doEnter, launches_append, launches_doLeave]
    rw [hloop.1]
    cases runFails <;> rfl
  · simp only [daemonJob.do_, daemonJob.doEnter]
    exact doLeave_not_running _ _ _ _ hloop.2

/-- Witness of C5 amended: the launch of job 7 returns at once after the
cancellation, before the first tick. -/
theorem cancelled_without_tick_launches_once_witness :
    ({ raceIter with tick := false }).done = true ∧
    launches (daemonJob.do_ sampleCfg sampleDaemon
      ⟨sampleJob 7 true .StatusJobRunning, some 0, 0⟩ false false
      [{ raceIter with tick := false }, raceIter]).trace = 1 :=
  ⟨rfl, (cancelled_without_tick_launches_once sampleCfg sampleDaemon
    ⟨sampleJob 7 true .StatusJobRunning, some 0, 0⟩ false false
    { raceIter with tick := false } [raceIter] rfl rfl).2.1⟩

/-! ## Failure notification -/

theorem rpcs_append (a b : List Event) : rpcs (a ++ b) = rpcs a ++ rpcs b := by
  simp [rpcs]

theorem rpcs_rpcLog (what : String) (r : RpcResult) : rpcs (rpcLog what r) = [] := by
  cases r <;> rfl

theorem rpcs_notifyMail (cfg : Config) (d : daemonJob) (mail : RpcResult) :
    rpcs (d.notifyMail cfg mail) =
      if d.job.ErrorMailNotify = true ∧ d.job.MailTo ≠ [] then [Event.sendMail (d.mailArgs cfg)]
      else [] := by
  unfold daemonJob.notifyMail
  cases hE : d.job.ErrorMailNotify <;> cases hM : d.job.MailTo <;> cases mail <;>
    simp [rpcs, isRpc, rpcLog]

theorem rpcs_notifyApi (cfg : Config) (d : daemonJob) (marshalFails : Bool) (api : RpcResult) :
    rpcs (d.notifyApi cfg marshalFails api) =
      if d.job.ErrorAPINotify = true ∧ d.job.APITo ≠ [] then
        [Event.apiPost (d.apiArgs cfg marshalFails)]
      else [] := by
  unfold daemonJob.notifyApi
  cases hE : d.job.ErrorAPINotify <;> cases hM : d.job.APITo <;> cases marshalFails <;>
    cases api <;> simp [rpcs, isRpc, rpcLog]

theorem handleNotify_trace (cfg : Config) (d : daemonJob) (e : String)
    (mail : RpcResult) (marshalFails : Bool) (api : RpcResult) (hmail : mail ≠ .panic) :
    (d.handleNotify cfg (some e) mail marshalFails api).trace
      = d.notifyMail cfg mail ++ d.notifyApi cfg marshalFails api := by
  have hm : decide (mail = .panic) = false := by simpa using hmail
  unfold daemonJob.handleNotify
  simp only [hm, Bool.and_false, Bool.false_eq_true, if_false]
  split <;> rfl

theorem handleNotify_returns (cfg : Config) (d : daemonJob) (err : Option String)
    (mail : RpcResult) (marshalFails : Bool) (api : RpcResult)
    (hmail : mail ≠ .panic) (hapi : api ≠ .panic) :
    (d.handleNotify cfg err mail marshalFails api).exit = .returned := by
  have hm : decide (mail = .panic) = false := by simpa using hmail
  have ha : decide (api = .panic) = false := by simpa using hapi
  cases err with
  | none => rfl
  | some e =>
    unfold daemonJob.handleNotify
    simp [hm, ha]

theorem rpcs_handleNotify (cfg : Config) (d : daemonJob) (e : String)
    (mail : RpcResult) (marshalFails : Bool) (api : RpcResult) (hmail : mail ≠ .panic) :
    rpcs (d.handleNotify cfg (some e) mail marshalFails api).trace =
      (if d.job.ErrorMailNotify = true ∧ d.job.MailTo ≠ [] then
        [Event.sendMail (d.mailArgs cfg)] else []) ++
      (if d.job.ErrorAPINotify = true ∧ d.job.APITo ≠ [] then
        [Event.apiPost (d.apiArgs cfg marshalFails)] else []) := by
  rw [handleNotify_trace cfg d e mail marshalFails api hmail, rpcs_append, rpcs_notifyMail,
    rpcs_notifyApi]

theorem mem_rpcs_sendMail (tr : List Event) (a : SendMail) :
    Event.sendMail a ∈ rpcs tr ↔ Event.sendMail a ∈ tr := by
  simp [rpcs, isRpc]

theorem mem_rpcs_apiPost (tr : List Event) (a : ApiPost) :
    Event.apiPost a ∈ rpcs tr ↔ Event.apiPost a ∈ tr := by
  simp [rpcs, isRpc]

theorem doLoop_step (cfg : Config) (d : daemonJob) (it : Iter) (rest : List Iter)
    (err : Option String) (hl : it.launch = .returned err)
    (hn : (d.handleNotify cfg err it.mail it.marshalFails it.api).exit = .returned) :
    daemonJob.doLoop cfg d (it :: rest) =
      if selectStop it || (d.job.FailRestart == false) then
        ⟨d, .launch d.job.ID d.job.Commands ::
          (d.handleNotify cfg err it.mail it.marshalFails it.api).trace, .returned⟩
      else
        match d.syncJob it.db with
        | none =>
          ⟨d, .launch d.job.ID d.job.Commands ::
            (d.handleNotify cfg err it.mail it.marshalFails it.api).trace, .returned⟩
        | some d1 =>
          ⟨(daemonJob.doLoop cfg d1 rest).state,
            .launch d.job.ID d.job.Commands ::
              (d.handleNotify cfg err it.mail it.marshalFails it.api).trace
              ++ (daemonJob.doLoop cfg d1 rest).trace,
            (daemonJob.doLoop cfg d1 rest).exit⟩ := by
  rw [daemonJob.doLoop]
  simp only [hl, hn]

/-- C8. `handleNotify` issues no RPC for a nil launcher error.  For a non-nil
error it issues `Srv.SendMail` (to `MailTo`) exactly when `ErrorMailNotify` is
set and `MailTo` is not empty, and `Srv.ApiPost` exactly when `ErrorAPINotify`
is set and `APITo` is not empty, to the job's `APITo` urls and, when the
marshalling succeeds, with the payload of job name, id, commands, node address,
creation time and notify type "error"; the calls issued are the same whether the mail call and the webhook call succeed or
return an error; the method returns in all these cases, and the retry loop
ends the same way, in the same state and after the same launches and RPCs,
whichever the outcomes. -/
theorem handleNotify_fanout (cfg : Config) (d : daemonJob) (err : Option String)
    (mail : RpcResult) (marshalFails : Bool) (api : RpcResult) (it : Iter) (rest : List Iter)
    (hmail : mail ≠ .panic) (hapi : api ≠ .panic) :
    (err = none → (d.handleNotify cfg err mail marshalFails api).trace = []) ∧
    (err ≠ none →
      rpcs (d.handleNotify cfg err mail marshalFails api).trace =
        (if d.job.ErrorMailNotify = true ∧ d.job.MailTo ≠ [] then
          [Event.sendMail ⟨d.job.MailTo, cfg.LocalAddr ++ "提醒常驻脚本异常退出"⟩] else []) ++
        (if d.job.ErrorAPINotify = true ∧ d.job.APITo ≠ [] then
          [Event.apiPost ⟨d.job.APITo,
            if marshalFails then none else
              some ⟨d.job.Name, d.job.ID, d.job.Commands, cfg.LocalAddr, d.job.CreatedAt,
                "error"⟩⟩]
         else [])) ∧
    (err ≠ none →
      ((∃ a, Event.sendMail a ∈ (d.handleNotify cfg err mail marshalFails api).trace) ↔
        (d.job.ErrorMailNotify = true ∧ d.job.MailTo ≠ [])) ∧
      ((∃ a, Event.apiPost a ∈ (d.handleNotify cfg err mail marshalFails api).trace) ↔
        (d.job.ErrorAPINotify = true ∧ d.job.APITo ≠ []))) ∧
    (∀ a, Event.apiPost a ∈ (d.handleNotify cfg err mail marshalFails api).trace →
      a.Urls = d.job.APITo ∧ ∀ x, a.Data = some x → x.NotifyType = "error") ∧
    (err ≠ none → d.job.ErrorAPINotify = true → d.job.APITo ≠ [] → marshalFails = false →
      Event.apiPost ⟨d.job.APITo,
        some ⟨d.job.Name, d.job.ID, d.job.Commands, cfg.LocalAddr, d.job.CreatedAt, "error"⟩⟩
        ∈ (d.handleNotify cfg err mail marshalFails api).trace) ∧
    (d.handleNotify cfg err mail marshalFails api).exit = .returned ∧
    (it.launch = .returned err →
      (daemonJob.doLoop cfg d ({ it with mail := mail, marshalFails := marshalFails, api := api } :: rest)).exit
        = (daemonJob.doLoop cfg d ({ it with mail := .ok, marshalFails := marshalFails, api := .ok } :: rest)).exit ∧
      (daemonJob.doLoop cfg d ({ it with mail := mail, marshalFails := marshalFails, api := api } :: rest)).state
        = (daemonJob.doLoop cfg d ({ it with mail := .ok, marshalFails := marshalFails, api := .ok } :: rest)).state ∧
      launches (daemonJob.doLoop cfg d ({ it with mail := mail, marshalFails := marshalFails, api := api } :: rest)).trace
        = launches (daemonJob.doLoop cfg d ({ it with mail := .ok, marshalFails := marshalFails, api := .ok } :: rest)).trace ∧
      rpcs (daemonJob.doLoop cfg d ({ it with mail := mail, marshalFails := marshalFails, api := api } :: rest)).trace
        = rpcs (daemonJob.doLoop cfg d ({ it with mail := .ok, marshalFails := marshalFails, api := .ok } :: rest)).trace) := by
  have hret := handleNotify_returns cfg d err mail marshalFails api hmail hapi
  have hpost : ∀ a, Event.apiPost a ∈ (d.handleNotify cfg err mail marshalFails api).trace →
      a.Urls = d.job.APITo ∧ ∀ x, a.Data = some x → x.NotifyType = "error" := by
    intro a ha
    cases err with
    | none => simp [daemonJob.handleNotify] at ha
    | some e =>
      rw [← mem_rpcs_apiPost, rpcs_handleNotify cfg d e mail marshalFails api hmail] at ha
      have h1 : a = d.apiArgs cfg marshalFails := by
        by_cases hc1 : d.job.ErrorMailNotify = true ∧ d.job.MailTo ≠ [] <;>
          by_cases hc2 : d.job.ErrorAPINotify = true ∧ d.job.APITo ≠ [] <;>
          simp [hc1, hc2] at ha <;> exact ha
      subst h1
      refine ⟨rfl, ?_⟩
      intro x hx
      cases marshalFails <;> simp [daemonJob.apiArgs] at hx
      subst hx; rfl
  have hsent : err ≠ none → d.job.ErrorAPINotify = true → d.job.APITo ≠ [] →
      marshalFails = false →
      Event.apiPost ⟨d.job.APITo,
        some ⟨d.job.Name, d.job.ID, d.job.Commands, cfg.LocalAddr, d.job.CreatedAt, "error"⟩⟩
        ∈ (d.handleNotify cfg err mail marshalFails api).trace := by
    intro hne hE hT hM
    cases err with
    | none => exact absurd rfl hne
    | some e =>
      rw [← mem_rpcs_apiPost, rpcs_handleNotify cfg d e mail marshalFails api hmail]
      subst hM
      simp [hE, hT, daemonJob.apiArgs]
  refine ⟨?_, ?_, ?_, hpost, hsent, hret, ?_⟩
  · intro h; subst h; rfl
  · intro hne
    cases err with
    | none => exact absurd rfl hne
    | some e => exact rpcs_handleNotify cfg d e mail marshalFails api hmail
  · intro hne
    cases err with
    | none => exact absurd rfl hne
    | some e =>
      have h := rpcs_handleNotify cfg d e mail marshalFails api hmail
      constructor
      · constructor
        · rintro ⟨a, ha⟩
          rw [← mem_rpcs_sendMail, h] at ha
          by_contra hc
          by_cases hc2 : d.job.ErrorAPINotify = true ∧ d.job.APITo ≠ [] <;>
            simp [hc, hc2] at ha
        · intro hc
          refine ⟨d.mailArgs cfg, ?_⟩
          rw [← mem_rpcs_sendMail, h]
          simp [hc]
      · constructor
        · rintro ⟨a, ha⟩
          rw [← mem_rpcs_apiPost, h] at ha
          by_contra hc
          by_cases hc2 : d.job.ErrorMailNotify = true ∧ d.job.MailTo ≠ [] <;>
            simp [hc, hc2] at ha
        · intro hc
          refine ⟨d.apiArgs cfg marshalFails, ?_⟩
          rw [← mem_rpcs_apiPost, h]
          simp [hc]
  · intro hl
    have hok := handleNotify_returns cfg d err .ok marshalFails .ok (by simp) (by simp)
    have hl0 := launches_handleNotify cfg d err mail marshalFails api
    have hl1 := launches_handleNotify cfg d err .ok marshalFails .ok
    have hr : rpcs (d.handleNotify cfg err mail marshalFails api).trace
        = rpcs (d.handleNotify cfg err .ok marshalFails .ok).trace := by
      cases err with
      | none => rfl
      | some e =>
        rw [rpcs_handleNotify cfg d e mail marshalFails api hmail,
          rpcs_handleNotify cfg d e .ok marshalFails .ok (by simp)]
    rw [doLoop_step cfg d { it with mail := mail, marshalFails := marshalFails, api := api }
        rest err hl hret,
      doLoop_step cfg d { it with mail := .ok, marshalFails := marshalFails, api := .ok }
        rest err hl hok]
    have hs : selectStop { it with mail := mail, marshalFails := marshalFails, api := api }
        = selectStop it := rfl
    have hs2 : selectStop { it with mail := .ok, marshalFails := marshalFails, api := .ok }
        = selectStop it := rfl
    rw [hs, hs2]
    have hc : ∀ tr, rpcs (Event.launch d.job.ID d.job.Commands :: tr) = rpcs tr := fun _ => rfl
    simp only []
    split
    · simp [launches, hl0, hl1, hc, hr]
    · split
      · simp [launches, hl0, hl1, hc, hr]
      · simp [launches, launches_append, rpcs_append, hl0, hl1, hc, hr]

/-- Witness of C8: a failed run of a job with both notifications configured,
the mail call returning an error; the webhook still goes out, with the payload
tagged "error". -/
theorem handleNotify_fanout_witness :
    RpcResult.failed ≠ RpcResult.panic ∧
    rpcs (daemonJob.handleNotify sampleCfg notifyTask (some "exit status 1") .failed false
      .ok).trace =
      [Event.sendMail ⟨["ops@example.org"], "node" ++ "提醒常驻脚本异常退出"⟩,
       Event.apiPost ⟨["http://hook.example.org"],
         some ⟨"job", 7, ["run"], "node", 0, "error"⟩⟩] :=
  ⟨by decide,
   ((handleNotify_fanout sampleCfg notifyTask (some "exit status 1") .failed false .ok raceIter []
      (by decide) (by decide)).2.1 (by simp)).trans (by rfl)⟩

/-! ## Leaving the loop -/

theorem syncJob_ID (d d1 : daemonJob) (db : DB) (h : d.syncJob db = some d1) :
    d1.job.ID = d.job.ID := by
  unfold daemonJob.syncJob at h
  cases ht : DB.take db d.job.ID .StatusJobRunning with
  | none => simp [ht] at h
  | some r =>
    simp only [ht, Option.some.injEq] at h
    subst h
    have hr := List.find?_some ht
    simp only [Bool.and_eq_true, decide_eq_true_eq] at hr
    exact hr.1

theorem handleNotify_no_bookkeeping (cfg : Config) (d : daemonJob) (err : Option String)
    (mail : RpcResult) (marshalFails : Bool) (api : RpcResult) :
    ∀ e ∈ (d.handleNotify cfg err mail marshalFails api).trace, bookkeeping e = false := by
  have hm : ∀ e ∈ d.notifyMail cfg mail, bookkeeping e = false := by
    unfold daemonJob.notifyMail
    split
    · cases mail <;> simp [rpcLog, bookkeeping]
    · simp
  have ha : ∀ e ∈ d.notifyApi cfg marshalFails api, bookkeeping e = false := by
    unfold daemonJob.notifyApi
    split
    · cases api <;> cases marshalFails <;> simp [rpcLog, bookkeeping]
    · simp
  cases err with
  | none => simp [daemonJob.handleNotify]
  | some x =>
    unfold daemonJob.handleNotify
    simp only
    split
    · exact hm
    · split <;>
      · intro e he
        rcases List.mem_append.mp he with h | h
        · exact hm e h
        · exact ha e h

theorem doLoop_facts (cfg : Config) (its : List Iter) (d : daemonJob) :
    (daemonJob.doLoop cfg d its).state.job.ID = d.job.ID ∧
    ((daemonJob.doLoop cfg d its).exit = .returned ∨
      (daemonJob.doLoop cfg d its).exit = .panicked ∨
      (daemonJob.doLoop cfg d its).exit = .running) ∧
    (∀ e ∈ (daemonJob.doLoop cfg d its).trace, bookkeeping e = false) := by
  induction its generalizing d with
  | nil => simp [daemonJob.doLoop]
  | cons it rest ih =>
    have hn := handleNotify_no_bookkeeping cfg d
    rw [daemonJob.doLoop]
    cases hl : it.launch with
    | panic => simp [bookkeeping]
    | returned err =>
      simp only
      split
      · split
        · simpa [bookkeeping] using hn err it.mail it.marshalFails it.api
        · split
          · simpa [bookkeeping] using hn err it.mail it.marshalFails it.api
          · rename_i d1 hs
            obtain ⟨h1, h2, h3⟩ := ih d1
            refine ⟨by rw [h1]; exact syncJob_ID d d1 it.db hs, h2, ?_⟩
            intro e he
            simp only [List.cons_append, List.mem_cons, List.mem_append] at he
            rcases he with h | h | h
            · subst h; rfl
            · exact hn err it.mail it.marshalFails it.api e h
            · exact h3 e h
      · simpa [bookkeeping] using hn err it.mail it.marshalFails it.api

theorem count_of_no_bookkeeping (tr : List Event) (a : Event)
    (h : ∀ e ∈ tr, bookkeeping e = false) (ha : bookkeeping a = true) : tr.count a = 0 := by
  rw [List.count_eq_zero]
  intro hmem
  have := h a hmem
  rw [ha] at this
  cases this

theorem PopJob_free (dm : Daemon) (jobID : Nat) (hfree : dm.lock = false) :
    (dm.PopJob jobID).exit ≠ .blocked := by
  cases hg : mapGet dm.taskMap jobID with
  | none => simp [Daemon.PopJob, hfree, hg]
  | some t => cases hc : t.cancel <;> simp [Daemon.PopJob, hfree, hg, hc]

theorem doLeave_cleanup (dm : Daemon) (d : daemonJob) (loopExit : Exit) (updateFails : Bool)
    (hfree : dm.lock = false) (hends : loopExit = .returned ∨ loopExit = .panicked) :
    (daemonJob.doLeave dm d loopExit updateFails).exit = .returned ∧
    (daemonJob.doLeave dm d loopExit updateFails).state.task = { d with processNum := 0 } ∧
    (daemonJob.doLeave dm d loopExit updateFails).state.daemon.wait = dm.wait - 1 ∧
    ∃ mid, (∀ e ∈ mid, bookkeeping e = false) ∧
      (daemonJob.doLeave dm d loopExit updateFails).trace =
        mid ++ (.update d.job.ID .StatusJobStop ::
          ((if updateFails then [.logError "update status"] else []) ++ [.waitDone])) := by
  rcases hends with h | h <;> subst h
  · rcases PopJob_shape dm d.job.ID with h | h | ⟨c, h⟩ | h
    · exact absurd (congrArg Run.exit h) (PopJob_free dm d.job.ID hfree)
    · refine ⟨by simp [daemonJob.doLeave, h, daemonJob.doDeferred],
        by simp [daemonJob.doLeave, h, daemonJob.doDeferred],
        by simp [daemonJob.doLeave, h, daemonJob.doDeferred],
        [.tickerStop, .lock, .unlock], by simp [bookkeeping], ?_⟩
      simp [daemonJob.doLeave, h, daemonJob.doDeferred]
    · refine ⟨by simp [daemonJob.doLeave, h, daemonJob.doDeferred],
        by simp [daemonJob.doLeave, h, daemonJob.doDeferred],
        by simp [daemonJob.doLeave, h, daemonJob.doDeferred],
        [.tickerStop, .lock, .mapDelete d.job.ID, .unlock, .cancel c],
        by simp [bookkeeping], ?_⟩
      simp [daemonJob.doLeave, h, daemonJob.doDeferred]
    · refine ⟨by simp [daemonJob.doLeave, h, daemonJob.doDeferred],
        by simp [daemonJob.doLeave, h, daemonJob.doDeferred],
        by simp [daemonJob.doLeave, h, daemonJob.doDeferred],
        [.tickerStop, .lock, .mapDelete d.job.ID, .unlock, .recovered, .logError "exec panic"],
        by simp [bookkeeping], ?_⟩
      simp [daemonJob.doLeave, h, daemonJob.doDeferred]
  · refine ⟨by simp [daemonJob.doLeave, daemonJob.doDeferred],
      by simp [daemonJob.doLeave, daemonJob.doDeferred],
      by simp [daemonJob.doLeave, daemonJob.doDeferred],
      [.recovered, .logError "exec panic"], by simp [bookkeeping], ?_⟩
    simp [daemonJob.doLeave, daemonJob.doDeferred]

/-- Cleanup with a free mutex.  With the registry mutex free when `do` reaches
`PopJob`, every run of
`do` whose loop ends (by a `break` for cancellation, `FailRestart` false or a
failed re-fetch, or by a recovered panic) returns with `processNum` 0, issues
the update of the status to stopped and goes on to `wait.Done()` whether or not
that update fails, and calls `wait.Add(1)` once and `wait.Done()` once, so the
wait-group counter is back at its value before `do` and `waitDone` behaves as
it did before. -/
theorem do_stops_on_every_exit (cfg : Config) (dm : Daemon) (d : daemonJob)
    (runFails stopFails : Bool) (its : List Iter) (hfree : dm.lock = false)
    (hends : (daemonJob.doLoop cfg { d with processNum := 1 } its).exit ≠ .running) :
    (daemonJob.do_ cfg dm d runFails stopFails its).exit = .returned ∧
    (daemonJob.do_ cfg dm d runFails stopFails its).state.task.processNum = 0 ∧
    (daemonJob.do_ cfg dm d runFails stopFails its).state.daemon.wait = dm.wait ∧
    (daemonJob.do_ cfg dm d runFails stopFails its).state.daemon.waitDone = dm.waitDone ∧
    (daemonJob.do_ cfg dm d runFails stopFails its).trace.count .waitAdd = 1 ∧
    (daemonJob.do_ cfg dm d runFails stopFails its).trace.count .waitDone = 1 ∧
    (daemonJob.do_ cfg dm d runFails stopFails its).trace.count
      (.update d.job.ID .StatusJobStop) = 1 ∧
    (∃ pre, (daemonJob.do_ cfg dm d runFails stopFails its).trace =
      pre ++ (.update d.job.ID .StatusJobStop ::
        ((if stopFails then [.logError "update status"] else []) ++ [.waitDone]))) := by
  obtain ⟨hid, hex, hev⟩ := doLoop_facts cfg its { d with processNum := 1 }
  have hex2 : (daemonJob.doLoop cfg { d with processNum := 1 } its).exit = .returned ∨
      (daemonJob.doLoop cfg { d with processNum := 1 } its).exit = .panicked := by
    rcases hex with h | h | h
    · exact Or.inl h
    · exact Or.inr h
    · exact absurd h hends
  obtain ⟨h1, h2, h3, mid, hmid, h4⟩ := doLeave_cleanup { dm with wait := dm.wait + 1 }
    (daemonJob.doLoop cfg { d with processNum := 1 } its).state
    (daemonJob.doLoop cfg { d with processNum := 1 } its).exit stopFails hfree hex2
  have hid2 : (daemonJob.doLoop cfg { d with processNum := 1 } its).state.job.ID = d.job.ID := hid
  rw [hid2] at h4
  have hc1 := fun a ha => count_of_no_bookkeeping
    (daemonJob.doLoop cfg { d with processNum := 1 } its).trace a hev ha
  have hc2 := fun a ha => count_of_no_bookkeeping mid a hmid ha
  have htr : (daemonJob.do_ cfg dm d runFails stopFails its).trace =
      ([.waitAdd, .update d.job.ID .StatusJobRunning]
        ++ (if runFails then [.logError "update status"] else []))
      ++ (daemonJob.doLoop cfg { d with processNum := 1 } its).trace
      ++ (mid ++ (.update d.job.ID .StatusJobStop ::
        ((if stopFails then [.logError "update status"] else []) ++ [.waitDone]))) := by
    simp only [daemonJob.do_, daemonJob.doEnter]
    rw [h4]
  have hw : (daemonJob.do_ cfg dm d runFails stopFails its).state.daemon.wait = dm.wait :=
    h3.trans (by simp)
  refine ⟨h1, ?_, hw, ?_, ?_, ?_, ?_, ?_⟩
  · exact congrArg daemonJob.processNum h2
  · simp only [Daemon.waitDone, hw]
  · rw [htr]
    simp only [List.count_append, hc1 .waitAdd rfl, hc2 .waitAdd rfl]
    cases runFails <;> cases stopFails <;> simp
  · rw [htr]
    simp only [List.count_append, hc1 .waitDone rfl, hc2 .waitDone rfl]
    cases runFails <;> cases stopFails <;> simp
  · rw [htr]
    simp only [List.count_append, hc1 (.update d.job.ID .StatusJobStop) rfl,
      hc2 (.update d.job.ID .StatusJobStop) rfl]
    cases runFails <;> cases stopFails <;> simp
  · exact ⟨_, by rw [htr, ← List.append_assoc]⟩


/-- Two runs with a free mutex: one that ends by a recovered panic with a
failing stop update, and one that ends by observed cancellation. -/
theorem do_stops_on_every_exit_witness :
    sampleDaemon.lock = false ∧
    (daemonJob.do_ sampleCfg sampleDaemon taskA false true [panicIter]).exit = .returned ∧
    (daemonJob.do_ sampleCfg sampleDaemon taskA true false
      [{ raceIter with tick := false }]).state.daemon.wait = sampleDaemon.wait :=
  ⟨rfl, (do_stops_on_every_exit sampleCfg sampleDaemon taskA false true [panicIter] rfl
      (by decide)).1,
    (do_stops_on_every_exit sampleCfg sampleDaemon taskA true false
      [{ raceIter with tick := false }] rfl (by decide)).2.2.1⟩

/-- C10, evaluated: job 7 (`FailRestart` false) is admitted twice, so the
mutex is held, and its single launch succeeds.  The loop ends by `break`, `do`
calls `PopJob` before the deferred function and waits at `Lock()` forever:
`processNum` stays 1, no update to stopped is issued, `wait.Done()` is never
called and `waitDone` waits.  On the same state a panicking launch does reach
the deferred function, which needs no mutex. -/
theorem do_break_blocks_before_cleanup :
    heldDaemon.lock = true ∧
    mapGet heldDaemon.taskMap 7 = some heldTask ∧
    (daemonJob.do_ sampleCfg heldDaemon heldTask false false [plainIter]).exit = .blocked ∧
    (daemonJob.do_ sampleCfg heldDaemon heldTask false false [plainIter]).trace =
      [.waitAdd, .update 7 .StatusJobRunning, .launch 7 ["run"], .tickerStop] ∧
    (daemonJob.do_ sampleCfg heldDaemon heldTask false false
      [plainIter]).state.task.processNum = 1 ∧
    (daemonJob.do_ sampleCfg heldDaemon heldTask false false [plainIter]).state.daemon.wait
      = heldDaemon.wait + 1 ∧
    (daemonJob.do_ sampleCfg heldDaemon heldTask false false
      [plainIter]).state.daemon.waitDone.exit = .blocked ∧
    (daemonJob.do_ sampleCfg heldDaemon heldTask false false [panicIter]).exit = .returned ∧
    (daemonJob.do_ sampleCfg heldDaemon heldTask false false [panicIter]).trace =
      [.waitAdd, .update 7 .StatusJobRunning, .launch 7 ["run"], .recovered,
       .logError "exec panic", .update 7 .StatusJobStop, .waitDone] ∧
    (daemonJob.do_ sampleCfg heldDaemon heldTask false false
      [panicIter]).state.task.processNum = 0 := by
  refine ⟨?_, ?_, ?_, ?_, ?_, ?_, ?_, ?_, ?_, ?_⟩ <;> rfl

/-- C3, evaluated: job 7 is admitted and its first launcher invocation panics.
The deferred function recovers the panic and `do` returns, but `PopJob` is on
the path after the loop only: the entry for job 7 stays in the registry and
`count()` is still 1 (after a `break` it is 0), and a later admission of job 7
is dropped as a duplicate. -/
theorem do_panic_leaves_registry_entry :
    mapGet admittedDaemon.taskMap 7 = some taskA ∧
    admittedDaemon.count.state = 1 ∧
    (daemonJob.do_ sampleCfg admittedDaemon taskA false false [panicIter]).exit = .returned ∧
    (daemonJob.do_ sampleCfg admittedDaemon taskA false false [panicIter]).trace =
      [.waitAdd, .update 7 .StatusJobRunning, .launch 7 ["run"], .recovered,
       .logError "exec panic", .update 7 .StatusJobStop, .waitDone] ∧
    mapGet (daemonJob.do_ sampleCfg admittedDaemon taskA false false
      [panicIter]).state.daemon.taskMap 7 = some taskA ∧
    (daemonJob.do_ sampleCfg admittedDaemon taskA false false
      [panicIter]).state.daemon.count.state = 1 ∧
    (daemonJob.do_ sampleCfg admittedDaemon taskA false false
      [{ raceIter with tick := false }]).state.daemon.count.state = 0 ∧
    started (Daemon.processBody (daemonJob.do_ sampleCfg admittedDaemon taskA false false
      [panicIter]).state.daemon (freshTask (sampleJob 7 true .StatusJobRunning))).trace = [] := by
  refine ⟨?_, ?_, ?_, ?_, ?_, ?_, ?_, ?_⟩ <;> rfl

/-- C4, evaluated: task A (job 7) is halted by `PopJob(7)`, task B with the same
id is admitted (context 1) while A is still in its loop, then A leaves its loop.
The `PopJob(7)` at the end of A finds the entry of B: it deletes it and calls
the cancel function of B. -/
theorem exit_of_halted_task_cancels_successor :
    cancels haltA.trace = [0] ∧
    mapGet haltA.state.taskMap 7 = none ∧
    mapGet readmitB.state.taskMap 7
      = some { job := sampleJob 7 false .StatusJobRunning, cancel := some 1, processNum := 0 } ∧
    started readmitB.trace = [(7, 1)] ∧
    exitA.exit = .returned ∧
    exitA.trace = [.tickerStop, .lock, .mapDelete 7, .unlock, .cancel 1,
      .update 7 .StatusJobStop, .waitDone] ∧
    mapGet exitA.state.daemon.taskMap 7 = none ∧
    exitA.state.daemon.count.state = 0 := by
  refine ⟨?_, ?_, ?_, ?_, ?_, ?_, ?_, ?_⟩ <;> rfl

end Jiacrontabd
